import Mathlib

/-!
Verification development for the DICOM-metadata → DCAT knowledge-graph
pipeline (map_dicom_complete.py and main.py).

The embedding models:
  * RDF terms (URIs, blank nodes, typed literals) and graphs as finite
    sets of subject/predicate/object triples,
  * the value coercion function parse_value,
  * the static name→predicate mapping and SNOMED lookup tables,
  * the per-catalog grouping and fact emission of
    json_to_rdf_multiple_catalogs,
  * the catalog subgraph extraction of download_catalog_rdf_file, and
  * the solution rows of the catalog aggregation SPARQL query of
    get_catalog_datasets_api.

Machine values: Python str values are Lean String; Python int is Lean Int;
the result of Python float() on plain decimal text is modelled exactly as a
canonical decimal fraction (integer numerator over a power of ten), so that
equal Python numeric values have equal model representations.
-/

/-- Raw JSON values as they appear in the interchange file: strings or
integers (the fields exercised by the pipeline carry these shapes). -/
inductive PyVal where
  | pstr (s : String)
  | pint (n : Int)
deriving DecidableEq, Repr

/-- Python str() of a raw value. -/
def pyStr : PyVal → String
  | .pstr s => s
  | .pint n => toString n

/-- Python isinstance(value, str). -/
def isStr : PyVal → Bool
  | .pstr _ => true
  | .pint _ => false

/-- Payload of an rdflib Literal: the Python value it wraps. ofDec n e is
the exact decimal value n / 10^e, kept canonical (e = 0 or 10 does not
divide n), modelling the float produced by Python float() on decimal text. -/
inductive LitVal where
  | ofStr (s : String)
  | ofInt (n : Int)
  | ofDec (n : Int) (e : Nat)
deriving DecidableEq, Repr

/-- An RDF term: URI reference, blank node, or literal with an optional
datatype URI. -/
inductive Term where
  | uri (s : String)
  | bnode (s : String)
  | lit (v : LitVal) (dt : Option String)
deriving DecidableEq, Repr

/-- A triple of the graph. -/
abbrev Triple := Term × Term × Term

/-- Namespace constants, exactly the strings bound in map_dicom_complete.py. -/
def dicomNS : String := "http://dicom.nema.org/resources/ontology/DCM#"

def dctermsNS : String := "http://purl.org/dc/terms/"

def rooNS : String := "http://www.cancerdata.org/roo/"

def foafNS : String := "http://xmlns.com/foaf/0.1/"

def snomedNS : String := "http://snomed.info/sct/"

def dcatNS : String := "http://www.w3.org/ns/dcat#"

def xsdNS : String := "http://www.w3.org/2001/XMLSchema#"

def rdfTypeURI : String := "http://www.w3.org/1999/02/22-rdf-syntax-ns#type"

def rdfType : Term := .uri rdfTypeURI

/-- Python s.startswith(p), by character lists. -/
def pyStartsWith (s p : String) : Bool := List.isPrefixOf p.data s.data

/-- Python s.endswith(p), by character lists. -/
def pyEndsWith (s p : String) : Bool := List.isPrefixOf p.data.reverse s.data.reverse

/-- Decimal digit run → value. -/
def digitsVal (l : List Char) : Nat :=
  l.foldl (fun a c => a * 10 + (c.toNat - 48)) 0

def allDigits (l : List Char) : Bool :=
  l.all (fun c => c.isDigit)

/-- A nonempty all-digit run, or failure. -/
def parseUnsignedNat (l : List Char) : Option Nat :=
  if l ≠ [] ∧ allDigits l then some (digitsVal l) else none

/-- Consume one optional leading sign; true means negative. -/
def parseSign : List Char → (Bool × List Char)
  | '-' :: r => (true, r)
  | '+' :: r => (false, r)
  | r => (false, r)

/-- Split at the first dot, if any. -/
def splitAtDot (l : List Char) : List Char × Option (List Char) :=
  match l.span (fun c => c ≠ '.') with
  | (a, []) => (a, none)
  | (a, _ :: b) => (a, some b)

/-- Split at the first exponent marker, if any. -/
def splitAtExp (l : List Char) : List Char × Option (List Char) :=
  match l.span (fun c => c ≠ 'e' ∧ c ≠ 'E') with
  | (a, []) => (a, none)
  | (a, _ :: b) => (a, some b)

/-- Strip common factors of ten from a decimal fraction n / 10^e, with fuel
bounding the number of strips; fuel e always suffices. -/
def stripTens : Nat → Int → Nat → Int × Nat
  | 0, n, e => (n, e)
  | _ + 1, n, 0 => (n, 0)
  | fuel + 1, n, e + 1 => if n % 10 = 0 then stripTens fuel (n / 10) e else (n, e + 1)

/-- Canonical form of the decimal fraction n / 10^e. -/
def decPair (n : Int) (e : Nat) : Int × Nat := stripTens e n e

/-- Value m / 10^f times 10^k, as a canonical decimal fraction. -/
def scaleDec (m : Int) (f : Nat) (k : Int) : Int × Nat :=
  let t : Int := k - (f : Int)
  if 0 ≤ t then (m * (10 : Int) ^ t.toNat, 0)
  else decPair m (-t).toNat

/-- Mantissa of a float literal: digit runs in the forms d, d.d, .d or d.
(at least one digit overall); yields numerator digits and fraction length. -/
def parseMantissa (l : List Char) : Option (Nat × Nat) :=
  match splitAtDot l with
  | (a, none) => (parseUnsignedNat a).map (fun n => (n, 0))
  | (a, some b) =>
    if a = [] ∧ b = [] then none
    else if allDigits a ∧ allDigits b then
      some (digitsVal (a ++ b), b.length)
    else none

/-- Exponent part after the marker: optional sign then digits. -/
def parseExpPart (l : List Char) : Option Int :=
  let (neg, r) := parseSign l
  (parseUnsignedNat r).map (fun n => if neg then -(n : Int) else (n : Int))

/-- Models Python float() on plain decimal text: optional sign, digit
mantissa with optional fraction dot, optional e/E exponent; the value is
kept exact as a canonical decimal fraction. Special forms (inf, nan,
embedded underscores, surrounding whitespace, binary rounding, overflow)
are outside the model; the pipeline feeds it plain DICOM numeric strings. -/
def pyFloat (s : String) : Option (Int × Nat) :=
  let (neg, r) := parseSign s.data
  let (m, e) := splitAtExp r
  match parseMantissa m, e with
  | some (n, f), none => some (decPair (if neg then -(n : Int) else (n : Int)) f)
  | some (n, f), some ex =>
    (parseExpPart ex).map (fun k => scaleDec (if neg then -(n : Int) else (n : Int)) f k)
  | none, _ => none

/-- Models Python int() on plain decimal integer text: optional sign then
digits. -/
def pyInt (s : String) : Option Int :=
  let (neg, r) := parseSign s.data
  (parseUnsignedNat r).map (fun n => if neg then -(n : Int) else (n : Int))

/-- Python float(value) for the value shapes of the model. -/
def pyFloatVal : PyVal → Option (Int × Nat)
  | .pstr s => pyFloat s
  | .pint n => some (n, 0)

/-- Python int(value) for the value shapes of the model. -/
def pyIntVal : PyVal → Option Int
  | .pstr s => pyInt s
  | .pint n => some n

/-- rdflib Literal(value) with no explicit datatype: a plain literal for a
str, an xsd:integer-typed literal for an int. -/
def pyLiteral : PyVal → Term
  | .pstr s => .lit (.ofStr s) none
  | .pint n => .lit (.ofInt n) (some (xsdNS ++ "integer"))

/-- Embedding of parse_value of map_dicom_complete.py: convert a raw value
according to its VR. Python float()/int() become pyFloatVal/pyIntVal, whose
failure is the except branch falling back to Literal(str(value)). -/
def parse_value (value : Option PyVal) (vr : Option String) : Option Term :=
  match value with
  | none => none
  | some v =>
    if vr = some "DS" ∨ vr = some "IS" ∨ vr = some "FD" ∨ vr = some "US" then
      if isStr v ∧ pyStartsWith (pyStr v) "[" ∧ pyEndsWith (pyStr v) "]" then
        some (.lit (.ofStr (pyStr v)) none)
      else if '.' ∈ (pyStr v).data then
        match pyFloatVal v with
        | some p => some (.lit (.ofDec p.1 p.2) (some (xsdNS ++ "decimal")))
        | none => some (.lit (.ofStr (pyStr v)) none)
      else
        match pyIntVal v with
        | some n => some (.lit (.ofInt n) (some (xsdNS ++ "integer")))
        | none => some (.lit (.ofStr (pyStr v)) none)
    else if vr = some "DA" then
      if (pyStr v).length = 8 then
        some (.lit (.ofStr (String.mk ((pyStr v).data.take 4) ++ "-" ++
          String.mk (((pyStr v).data.drop 4).take 2) ++ "-" ++
          String.mk (((pyStr v).data.drop 6).take 2))) (some (xsdNS ++ "date")))
      else
        some (.lit (.ofStr (pyStr v)) none)
    else if vr = some "TM" then
      some (.lit (.ofStr (pyStr v)) (some (xsdNS ++ "time")))
    else
      some (pyLiteral v)

example : parse_value (some (.pstr "123")) (some "IS") =
    some (.lit (.ofInt 123) (some (xsdNS ++ "integer"))) := by decide

example : parse_value (some (.pstr "123.5")) (some "DS") =
    some (.lit (.ofDec 1235 1) (some (xsdNS ++ "decimal"))) := by decide

example : parse_value (some (.pstr "[1,2,3]")) (some "DS") =
    some (.lit (.ofStr "[1,2,3]") none) := by decide

example : parse_value (some (.pstr "20250810")) (some "DA") =
    some (.lit (.ofStr "2025-08-10") (some (xsdNS ++ "date"))) := by decide

example : pyFloat "12.34.56" = none := by decide

example : pyFloat "-1.5e2" = some (-150, 0) := by decide

example : pyFloat "1.50" = some (15, 1) := by decide

/-- The SNOMED controlled-vocabulary table snomed_mapping. -/
def snomed_mapping : List (String × String) :=
  [("THYROID", snomedNS ++ "111160001"),
   ("RECTUM", snomedNS ++ "34506005")]

/-- The predicate URI of the anatomical-site mapping, ROO.hasAnatomicSite. -/
def rooHasAnatomicSite : String := rooNS ++ "hasAnatomicSite"

/-- The static mapping of DICOM element names to lists of predicate URIs. -/
def mapping : List (String × List String) :=
  [("SOP Instance UID", [dicomNS ++ "SOPInstanceUID"]),
   ("Study Date", [dctermsNS ++ "created"]),
   ("Series Date", [dicomNS ++ "SeriesDate"]),
   ("Acquisition Date", [dicomNS ++ "AcquisitionDate"]),
   ("Study Time", [dicomNS ++ "StudyTime"]),
   ("Series Time", [dicomNS ++ "SeriesTime"]),
   ("Acquisition Time", [dicomNS ++ "AcquisitionTime"]),
   ("Accession Number", [dicomNS ++ "AccessionNumber"]),
   ("Modality", [dicomNS ++ "Modality"]),
   ("Manufacturer", [dicomNS ++ "Manufacturer"]),
   ("Study Description", [dctermsNS ++ "description"]),
   ("Series Description", [dicomNS ++ "SeriesDescription"]),
   ("Manufacturer\x27s Model Name", [dicomNS ++ "ManufacturerModelName"]),
   ("Patient\x27s Name", [foafNS ++ "name"]),
   ("Patient ID", [dicomNS ++ "PatientID"]),
   ("Patient\x27s Sex", [rooNS ++ "hasSex"]),
   ("Patient\x27s Age", [rooNS ++ "hasAge"]),
   ("Additional Patient History", [rooNS ++ "hasPatientHistory"]),
   ("Body Part Examined", [rooHasAnatomicSite, dicomNS ++ "BodyPartExamined"]),
   ("Scan Options", [dicomNS ++ "ScanOptions"]),
   ("Slice Thickness", [dicomNS ++ "SliceThickness"]),
   ("KVP", [dicomNS ++ "KVP"]),
   ("Data Collection Diameter", [dicomNS ++ "DataCollectionDiameter"]),
   ("Software Versions", [dicomNS ++ "SoftwareVersions"]),
   ("Protocol Name", [dicomNS ++ "ProtocolName"]),
   ("Distance Source to Detector", [dicomNS ++ "DistanceSourceToDetector"]),
   ("Distance Source to Patient", [dicomNS ++ "DistanceSourceToPatient"]),
   ("Gantry/Detector Tilt", [dicomNS ++ "GantryDetectorTilt"]),
   ("Table Height", [dicomNS ++ "TableHeight"]),
   ("Rotation Direction", [dicomNS ++ "RotationDirection"]),
   ("Exposure Time", [dicomNS ++ "ExposureTime"]),
   ("X-Ray Tube Current", [dicomNS ++ "XRayTubeCurrent"]),
   ("Exposure", [dicomNS ++ "Exposure"]),
   ("Filter Type", [dicomNS ++ "FilterType"]),
   ("Generator Power", [dicomNS ++ "GeneratorPower"]),
   ("Focal Spot(s)", [dicomNS ++ "FocalSpots"]),
   ("Convolution Kernel", [dicomNS ++ "ConvolutionKernel"]),
   ("Patient Position", [dicomNS ++ "PatientPosition"]),
   ("Study Instance UID", [dicomNS ++ "StudyInstanceUID"]),
   ("Series Instance UID", [dicomNS ++ "SeriesInstanceUID"]),
   ("Series Number", [dicomNS ++ "SeriesNumber"]),
   ("Instance Number", [dicomNS ++ "InstanceNumber"]),
   ("Image Position (Patient)", [dicomNS ++ "ImagePositionPatient"]),
   ("Image Orientation (Patient)", [dicomNS ++ "ImageOrientationPatient"]),
   ("Rows", [dicomNS ++ "Rows"]),
   ("Columns", [dicomNS ++ "Columns"]),
   ("Reason for Study", [rooNS ++ "hasReasonForStudy"]),
   ("Study Comments", [rooNS ++ "hasStudyComment"])]

/-- One entry of a file's "Dataset" list in the interchange JSON. -/
structure Elem where
  name : Option String
  vr : Option String
  value : Option PyVal
deriving DecidableEq, Repr

/-- One entry of the interchange JSON array: a file path and its flattened
DICOM element records. -/
structure Item where
  filePath : Option String
  dataset : List Elem
deriving DecidableEq, Repr

/-- Python str.upper() on ASCII text, as applied to DICOM body-part
strings: a character-wise upper-casing. -/
def pyUpper (s : String) : String := String.mk (s.data.map Char.toUpper)

/-- Python truthiness of an optional raw value (None, "" and 0 are falsy). -/
def pyTruthy : Option PyVal → Bool
  | none => false
  | some (.pstr s) => s ≠ ""
  | some (.pint n) => n ≠ 0

/-- Python str.split on a single separator character, over char lists
(splitting an empty string yields one empty field, as in Python). -/
def splitChar (c : Char) : List Char → List (List Char)
  | [] => [[]]
  | x :: r =>
    if x = c then [] :: splitChar c r
    else
      match splitChar c r with
      | h :: t => (x :: h) :: t
      | [] => [[x]]

/-- The normalized path split of json_to_rdf_multiple_catalogs:
file_path.replace(backslash, slash).split(slash); single-character
replacement is a character map. -/
def normParts (p : String) : List String :=
  (splitChar '/' (p.data.map (fun c => if c = '\x5c' then '/' else c))).map String.mk

/-- The catalog grouping key: path_parts[1] when the normalized path has
more than one part, otherwise the item is skipped. -/
def catalogKey (item : Item) : Option String :=
  match normParts (item.filePath.getD "") with
  | _ :: c :: _ => some c
  | _ => none

/-- The multiset of catalog keys of a data list; iteration of the catalogs
dict is modelled by folding over this list, which yields the same fact set
because insertion is idempotent and commutative. -/
def catalogKeys (data : List Item) : List String :=
  data.filterMap catalogKey

/-- catalogs[k]: the items grouped under catalog key k, in input order. -/
def catalogData (data : List Item) (k : String) : List Item :=
  data.filter (fun it => catalogKey it = some k)

/-- os.path.basename on a POSIX path: the part after the last slash. -/
def basename (p : String) : String :=
  String.mk ((splitChar '/' p.data).getLastD [])

def catalogUri (c : String) : Term := .uri ("http://example.org/catalog/" ++ c)

def datasetUri (c : String) : Term := .uri ("http://example.org/dataset/" ++ c)

/-- The Distribution subject URI of a file: catalog name and basename of
the file path joined by an underscore under the dicom/ prefix. -/
def distSubject (c sid : String) : Term :=
  .uri ("http://example.org/dicom/" ++ (c ++ ("_" ++ sid)))

def dcatDatasetP : Term := .uri (dcatNS ++ "dataset")

def dcatDistributionP : Term := .uri (dcatNS ++ "distribution")

def dctermsIdentifierP : Term := .uri (dctermsNS ++ "identifier")

/-- The object emitted under ROO.hasAnatomicSite for a string value: the
SNOMED URI on an upper-cased table hit, the original text otherwise. -/
def anatomicObject (v : String) : Term :=
  match snomed_mapping.lookup (pyUpper v) with
  | some u => .uri u
  | none => .lit (.ofStr v) none

/-- The fact one predicate of a mapping entry contributes for an element
value (lines 172-179 of map_dicom_complete.py). -/
def propFact (subj : Term) (vr : Option String) (v : PyVal) (prop : String) : Option Triple :=
  if prop = rooHasAnatomicSite ∧ isStr v then
    some (subj, .uri prop, anatomicObject (pyStr v))
  else
    (parse_value (some v) vr).map (fun l => (subj, .uri prop, l))

/-- All facts one element record contributes (lines 165-179): nothing
unless the name is mapped and the value is not None. -/
def elemFacts (subj : Term) (e : Elem) : Finset Triple :=
  match e.name, e.value with
  | some name, some v =>
    match mapping.lookup name with
    | some props => (props.filterMap (propFact subj e.vr v)).toFinset
    | none => ∅
  | _, _ => ∅

/-- The facts of one file under catalog c (lines 152-179): the structural
Distribution facts plus the mapped element facts. -/
def fileFacts (c : String) (item : Item) : Finset Triple :=
  let sid := basename (item.filePath.getD "")
  let subj := distSubject c sid
  ({(datasetUri c, dcatDistributionP, subj),
    (subj, rdfType, .uri (dcatNS ++ "Distribution")),
    (subj, .uri (dctermsNS ++ "title"), .lit (.ofStr sid) none),
    (subj, .uri (dcatNS ++ "mediaType"), .lit (.ofStr "application/dicom") none)} : Finset Triple)
  ∪ item.dataset.foldl (fun acc e => acc ∪ elemFacts subj e) ∅

/-- The Value of the first record named "Study Instance UID" of the first
file of a catalog, as in lines 146-150. -/
def studyUidOf (items : List Item) : Option PyVal :=
  match items with
  | [] => none
  | first :: _ =>
    match first.dataset.find? (fun e => e.name = some "Study Instance UID") with
    | some e => e.value
    | none => none

/-- The dataset identifier fact, emitted only when the study UID of the
first file is present and truthy. -/
def identifierFacts (c : String) (items : List Item) : Finset Triple :=
  match studyUidOf items with
  | some v => if pyTruthy (some v) then {(datasetUri c, dctermsIdentifierP, pyLiteral v)} else ∅
  | none => ∅

/-- The nine structural facts of one catalog and its dataset node
(lines 133-143). -/
def structuralFacts (c : String) : Finset Triple :=
  ({(catalogUri c, rdfType, .uri (dcatNS ++ "Catalog")),
    (catalogUri c, .uri (dctermsNS ++ "title"), .lit (.ofStr ("DICOM Collection: " ++ c)) none),
    (catalogUri c, dcatDatasetP, datasetUri c),
    (catalogUri c, .uri (dctermsNS ++ "publisher"), .lit (.ofStr "Priyanka Test Catalog Publisher") none),
    (catalogUri c, .uri (dctermsNS ++ "language"), .lit (.ofStr "en") none),
    (catalogUri c, .uri (dctermsNS ++ "issued"), .lit (.ofStr "2025-08-10") (some (xsdNS ++ "date"))),
    (datasetUri c, rdfType, .uri (dcatNS ++ "Dataset")),
    (datasetUri c, .uri (dctermsNS ++ "title"), .lit (.ofStr ("DICOM Files for " ++ c)) none),
    (datasetUri c, .uri (dctermsNS ++ "description"),
      .lit (.ofStr ("A dataset containing all DICOM metadata for catalog " ++ c ++ ".")) none)} : Finset Triple)

/-- All facts of one catalog (lines 128-179): catalog and dataset
structural facts, the optional dataset identifier, and every file's facts. -/
def catalogFacts (c : String) (items : List Item) : Finset Triple :=
  structuralFacts c
  ∪ identifierFacts c items
  ∪ items.foldl (fun acc it => acc ∪ fileFacts c it) ∅

/-- The whole assembled graph of json_to_rdf_multiple_catalogs for a parsed
data list. -/
def json_to_rdf (data : List Item) : Finset Triple :=
  (catalogKeys data).foldl (fun g k => g ∪ catalogFacts k (catalogData data k)) ∅

example : normParts "/catA/s1/x.dcm" = ["", "catA", "s1", "x.dcm"] := by decide

example : basename "/catA/s1/x.dcm" = "x.dcm" := by decide

example : catalogKey ⟨some "/catA/s1/x.dcm", []⟩ = some "catA" := by decide

/-- All triples of g with the given subject, as iterated by
g.triples((s, None, None)). -/
def subjTriples (g : Finset Triple) (s : Term) : Finset Triple :=
  g.filter (fun t => t.1 = s)

def isBNode : Term → Bool
  | .bnode _ => true
  | _ => false

/-- The subgraph copied by download_catalog_rdf_file of main.py: the
catalog subject's triples; for each dcat:dataset object, that dataset's
triples; for each of its dcat:distribution objects that is not a blank
node, that distribution's triples. -/
def extractGraph (g : Finset Triple) (c : String) : Finset Triple :=
  let cu := catalogUri c
  subjTriples g cu ∪
    (subjTriples g cu).biUnion (fun t =>
      if t.2.1 = dcatDatasetP then
        subjTriples g t.2.2 ∪
          (subjTriples g t.2.2).biUnion (fun t2 =>
            if t2.2.1 = dcatDistributionP ∧ isBNode t2.2.2 = false then subjTriples g t2.2.2
            else ∅)
      else ∅)

/-- The endpoint behaviour of download_catalog_rdf_file: a 404 (none) when
no triple has the constructed catalog URI as subject, otherwise the
serialized subgraph. -/
def download_catalog_rdf_file (g : Finset Triple) (c : String) : Option (Finset Triple) :=
  if subjTriples g (catalogUri c) = ∅ then none else some (extractGraph g c)

/-- Closure of a subgraph: every object of a catalog→dataset or
dataset→distribution fact inside it is also a subject inside it. -/
def ClosedSubgraph (S : Finset Triple) : Prop :=
  ∀ t ∈ S, t.2.1 = dcatDatasetP ∨ t.2.1 = dcatDistributionP → ∃ t2 ∈ S, t2.1 = t.2.2

instance (S : Finset Triple) : Decidable (ClosedSubgraph S) := by
  unfold ClosedSubgraph; infer_instance

/-- One solution row of the catalog aggregation query of
get_catalog_datasets_api, with its bound variables in SELECT order. -/
structure CatRow where
  catalog : Term
  catalogTitle : Option Term
  catalogPublisher : Option Term
  catalogIssued : Option Term
  catalogLanguage : Option Term
  dataset : Term
  datasetTitle : Option Term
  datasetDescription : Option Term
  datasetIdentifier : Option Term
  datasetIssued : Option Term
  distribution : Term
deriving DecidableEq, Repr

/-- The GROUP BY key of that query: every selected variable except the
counted ?distribution. -/
structure CatKey where
  catalog : Term
  catalogTitle : Option Term
  catalogPublisher : Option Term
  catalogIssued : Option Term
  catalogLanguage : Option Term
  dataset : Term
  datasetTitle : Option Term
  datasetDescription : Option Term
  datasetIdentifier : Option Term
  datasetIssued : Option Term
deriving DecidableEq, Repr

def keyOf (r : CatRow) : CatKey :=
  ⟨r.catalog, r.catalogTitle, r.catalogPublisher, r.catalogIssued, r.catalogLanguage,
   r.dataset, r.datasetTitle, r.datasetDescription, r.datasetIdentifier, r.datasetIssued⟩

def dctermsTitleP : Term := .uri (dctermsNS ++ "title")

def dctermsPublisherP : Term := .uri (dctermsNS ++ "publisher")

def dctermsIssuedP : Term := .uri (dctermsNS ++ "issued")

def dctermsLanguageP : Term := .uri (dctermsNS ++ "language")

def dctermsDescriptionP : Term := .uri (dctermsNS ++ "description")

def dcatCatalogCls : Term := .uri (dcatNS ++ "Catalog")

/-- The bindings an OPTIONAL single-pattern clause contributes for a fixed
subject and predicate: one unbound row when no triple matches, else one
binding per matching triple (SPARQL left join on one triple pattern). The
graph is given as its duplicate-free iteration list gl. -/
def optCandidates (gl : List Triple) (s p : Term) : List (Option Term) :=
  let l := gl.filter (fun t => t.1 = s ∧ t.2.1 = p)
  if l = [] then [none] else l.map (fun t => some t.2.2)

/-- The rows produced for one catalog/dataset/distribution match of the
mandatory pattern, one per combination of OPTIONAL bindings. -/
def rowsForDist (gl : List Triple) (c ds dist : Term) : List CatRow :=
  (optCandidates gl c dctermsTitleP).flatMap (fun v1 =>
  (optCandidates gl c dctermsPublisherP).flatMap (fun v2 =>
  (optCandidates gl c dctermsIssuedP).flatMap (fun v3 =>
  (optCandidates gl c dctermsLanguageP).flatMap (fun v4 =>
  (optCandidates gl ds dctermsTitleP).flatMap (fun v5 =>
  (optCandidates gl ds dctermsDescriptionP).flatMap (fun v6 =>
  (optCandidates gl ds dctermsIdentifierP).flatMap (fun v7 =>
  (optCandidates gl ds dctermsIssuedP).map (fun v8 =>
    ⟨c, v1, v2, v3, v4, ds, v5, v6, v7, v8, dist⟩))))))))

/-- The full solution multiset of the aggregation query under standard
SPARQL evaluation: each solution mapping of the WHERE pattern occurs once
per distinct way of matching, enumerated from the graph's triple list. -/
def catRows (gl : List Triple) : List CatRow :=
  (gl.filter (fun t => t.2.1 = rdfType ∧ t.2.2 = dcatCatalogCls)).flatMap (fun tc =>
  (gl.filter (fun t => t.1 = tc.1 ∧ t.2.1 = dcatDatasetP)).flatMap (fun td =>
  (gl.filter (fun t => t.1 = td.2.2 ∧ t.2.1 = dcatDistributionP)).flatMap (fun tdist =>
  rowsForDist gl tc.1 td.2.2 tdist.2.2)))

/-- The rows of one GROUP BY group. -/
def groupRows (gl : List Triple) (K : CatKey) : List CatRow :=
  (catRows gl).filter (fun r => keyOf r = K)

/-- COUNT(?distribution) of a group: ?distribution is bound in every row,
so the aggregate counts the group's rows. -/
def numRecords (gl : List Triple) (K : CatKey) : Nat :=
  (groupRows gl K).length

/-- The number of distinct ?distribution values bound in a group. -/
def distinctDistributionCount (gl : List Triple) (K : CatKey) : Nat :=
  ((groupRows gl K).map (fun r => r.distribution)).dedup.length

/-! General helper lemmas. -/

theorem mem_foldl_union {α β : Type _} [DecidableEq α] (f : β → Finset α) (l : List β)
    (init : Finset α) (t : α) :
    t ∈ l.foldl (fun acc b => acc ∪ f b) init ↔ t ∈ init ∨ ∃ b ∈ l, t ∈ f b := by
  induction l generalizing init with
  | nil => simp
  | cons b l ih =>
    simp only [List.foldl_cons, ih, Finset.mem_union, List.mem_cons]
    constructor
    · rintro (⟨h | h⟩ | ⟨b2, hb2, ht⟩)
      · exact Or.inl h
      · exact Or.inr ⟨b, Or.inl rfl, h⟩
      · exact Or.inr ⟨b2, Or.inr hb2, ht⟩
    · rintro (h | ⟨b2, (rfl | hb2), ht⟩)
      · exact Or.inl (Or.inl h)
      · exact Or.inl (Or.inr ht)
      · exact Or.inr ⟨b2, hb2, ht⟩

theorem lookup_mem {α β : Type _} [BEq α] [LawfulBEq α] :
    ∀ {l : List (α × β)} {a : α} {b : β}, l.lookup a = some b → (a, b) ∈ l := by
  intro l
  induction l with
  | nil => intro a b h; simp [List.lookup] at h
  | cons p l ih =>
    intro a b h
    obtain ⟨k, v⟩ := p
    rw [List.lookup] at h
    cases hk : a == k
    · rw [hk] at h
      exact List.mem_cons_of_mem _ (ih h)
    · rw [hk] at h
      have h2 : some v = some b := h
      obtain rfl : v = b := Option.some.inj h2
      have : a = k := by simpa using hk
      subst this
      exact List.mem_cons_self ..

theorem string_eq_of_data {s t : String} (h : s.data = t.data) : s = t := by
  cases s
  cases t
  exact congrArg String.mk h

theorem string_append_ne_of_ne_at (p1 p2 : String) (i : Nat) (h1 : i < p1.data.length)
    (h2 : i < p2.data.length) (hne : p1.data[i]? ≠ p2.data[i]?) (x y : String) :
    p1 ++ x ≠ p2 ++ y := by
  intro h
  apply hne
  have hd : p1.data ++ x.data = p2.data ++ y.data := by
    rw [← String.data_append, ← String.data_append, h]
  have e1 : (p1.data ++ x.data)[i]? = p1.data[i]? := List.getElem?_append_left h1
  have e2 : (p2.data ++ y.data)[i]? = p2.data[i]? := List.getElem?_append_left h2
  rw [← e1, ← e2, hd]

theorem string_append_cancel_left {p x y : String} (h : p ++ x = p ++ y) : x = y := by
  have hd : p.data ++ x.data = p.data ++ y.data := by
    rw [← String.data_append, ← String.data_append, h]
  exact string_eq_of_data (List.append_cancel_left hd)

theorem string_append_cancel_right {x y s : String} (h : x ++ s = y ++ s) : x = y := by
  have hd : x.data ++ s.data = y.data ++ s.data := by
    rw [← String.data_append, ← String.data_append, h]
  exact string_eq_of_data (List.append_cancel_right hd)

theorem nodup_flatMap_field {α β : Type _} (l : List α) (f : α → List β) (gf : β → α)
    (hl : l.Nodup) (hf : ∀ a ∈ l, (f a).Nodup)
    (hg : ∀ a ∈ l, ∀ b ∈ f a, gf b = a) : (l.flatMap f).Nodup := by
  induction l with
  | nil => simp
  | cons a l ih =>
    rw [List.flatMap_cons, List.nodup_append]
    refine ⟨hf a (List.mem_cons_self ..),
      ih (List.nodup_cons.1 hl).2 (fun x hx => hf x (List.mem_cons_of_mem _ hx))
        (fun x hx => hg x (List.mem_cons_of_mem _ hx)), ?_⟩
    intro b hb1 hb2
    obtain ⟨a2, ha2, hb2'⟩ := List.mem_flatMap.1 hb2
    have h1 := hg a (List.mem_cons_self ..) b hb1
    have h2 := hg a2 (List.mem_cons_of_mem _ ha2) b hb2'
    have : a = a2 := h1.symm.trans h2
    subst this
    exact (List.nodup_cons.1 hl).1 ha2

/-! Membership characterizations of the assembled graph. -/

theorem mem_fileFacts {c : String} {item : Item} {t : Triple} :
    t ∈ fileFacts c item ↔
      (t = (datasetUri c, dcatDistributionP,
            distSubject c (basename (item.filePath.getD ""))) ∨
       t = (distSubject c (basename (item.filePath.getD "")), rdfType,
            .uri (dcatNS ++ "Distribution")) ∨
       t = (distSubject c (basename (item.filePath.getD "")), .uri (dctermsNS ++ "title"),
            .lit (.ofStr (basename (item.filePath.getD ""))) none) ∨
       t = (distSubject c (basename (item.filePath.getD "")), .uri (dcatNS ++ "mediaType"),
            .lit (.ofStr "application/dicom") none) ∨
       ∃ e ∈ item.dataset,
         t ∈ elemFacts (distSubject c (basename (item.filePath.getD ""))) e) := by
  unfold fileFacts
  rw [Finset.mem_union, mem_foldl_union]
  simp [or_assoc]

theorem mem_catalogFacts {c : String} {items : List Item} {t : Triple} :
    t ∈ catalogFacts c items ↔
      t ∈ structuralFacts c ∨ t ∈ identifierFacts c items ∨
        ∃ it ∈ items, t ∈ fileFacts c it := by
  unfold catalogFacts
  rw [Finset.mem_union, Finset.mem_union, mem_foldl_union]
  simp [or_assoc]

theorem mem_json_to_rdf {data : List Item} {t : Triple} :
    t ∈ json_to_rdf data ↔
      ∃ k ∈ catalogKeys data, t ∈ catalogFacts k (catalogData data k) := by
  unfold json_to_rdf
  rw [mem_foldl_union]
  simp

/-! Shape lemmas: which subjects and predicates occur where. -/

/-- All predicate URIs that the element mapping can emit. -/
def allProps : List String := mapping.flatMap (fun pr => pr.2)

theorem lookup_props_sub {name : String} {props : List String}
    (h : mapping.lookup name = some props) : ∀ p ∈ props, p ∈ allProps := by
  intro p hp
  exact List.mem_flatMap.2 ⟨(name, props), lookup_mem h, hp⟩

theorem allProps_ne_structural : ∀ p ∈ allProps,
    p ≠ dcatNS ++ "dataset" ∧ p ≠ dcatNS ++ "distribution" ∧
    p ≠ dctermsNS ++ "identifier" := by decide

theorem propFact_shape {subj : Term} {vr : Option String} {v : PyVal} {prop : String}
    {t : Triple} (h : propFact subj vr v prop = some t) :
    t.1 = subj ∧ t.2.1 = Term.uri prop := by
  unfold propFact at h
  split at h
  · obtain rfl := Option.some.inj h
    exact ⟨rfl, rfl⟩
  · cases hpv : parse_value (some v) vr with
    | none => rw [hpv] at h; simp at h
    | some l =>
      rw [hpv] at h
      obtain rfl := Option.some.inj h
      exact ⟨rfl, rfl⟩

theorem elemFacts_shape {subj : Term} {e : Elem} {t : Triple} (h : t ∈ elemFacts subj e) :
    t.1 = subj ∧ ∃ p ∈ allProps, t.2.1 = Term.uri p := by
  unfold elemFacts at h
  obtain ⟨name?, vr?, value?⟩ := e
  cases name? with
  | none => simp at h
  | some name =>
    cases value? with
    | none => simp at h
    | some v =>
      simp only at h
      cases hm : mapping.lookup name with
      | none => rw [hm] at h; simp at h
      | some props =>
        rw [hm] at h
        rw [List.mem_toFinset, List.mem_filterMap] at h
        obtain ⟨prop, hprop, hpf⟩ := h
        obtain ⟨h1, h2⟩ := propFact_shape hpf
        exact ⟨h1, prop, lookup_props_sub hm prop hprop, h2⟩

theorem mem_identifierFacts {c : String} {items : List Item} {t : Triple}
    (h : t ∈ identifierFacts c items) :
    ∃ v, studyUidOf items = some v ∧ pyTruthy (some v) = true ∧
      t = (datasetUri c, dctermsIdentifierP, pyLiteral v) := by
  unfold identifierFacts at h
  cases hs : studyUidOf items with
  | none => rw [hs] at h; simp at h
  | some v =>
    rw [hs] at h
    have h2 : t ∈ (if pyTruthy (some v) = true then
        ({(datasetUri c, dctermsIdentifierP, pyLiteral v)} : Finset Triple) else ∅) := h
    by_cases hb : pyTruthy (some v) = true
    · rw [if_pos hb] at h2
      rw [Finset.mem_singleton] at h2
      exact ⟨v, rfl, hb, h2⟩
    · rw [if_neg hb] at h2
      simp at h2

/-! URI scheme lemmas. -/

theorem catalogUri_inj {c k : String} (h : catalogUri c = catalogUri k) : c = k := by
  unfold catalogUri at h
  exact string_append_cancel_left (Term.uri.inj h)

theorem datasetUri_inj {c k : String} (h : datasetUri c = datasetUri k) : c = k := by
  unfold datasetUri at h
  exact string_append_cancel_left (Term.uri.inj h)

theorem catalogUri_ne_datasetUri (c k : String) : catalogUri c ≠ datasetUri k := by
  intro h
  unfold catalogUri datasetUri at h
  exact string_append_ne_of_ne_at "http://example.org/catalog/" "http://example.org/dataset/"
    19 (by decide) (by decide) (by decide) c k (Term.uri.inj h)

theorem distSubject_ne_catalogUri (c sid k : String) : distSubject c sid ≠ catalogUri k := by
  intro h
  unfold distSubject catalogUri at h
  exact string_append_ne_of_ne_at "http://example.org/dicom/" "http://example.org/catalog/"
    19 (by decide) (by decide) (by decide) _ k (Term.uri.inj h)

theorem distSubject_ne_datasetUri (c sid k : String) : distSubject c sid ≠ datasetUri k := by
  intro h
  unfold distSubject datasetUri at h
  exact string_append_ne_of_ne_at "http://example.org/dicom/" "http://example.org/dataset/"
    20 (by decide) (by decide) (by decide) _ k (Term.uri.inj h)

theorem distSubject_inj_sid {c1 c2 sid : String} (h : distSubject c1 sid = distSubject c2 sid) :
    c1 = c2 := by
  unfold distSubject at h
  exact string_append_cancel_right (string_append_cancel_left (Term.uri.inj h))

/-! Predicate shape lemmas over one catalog's facts. -/

theorem catalogFacts_dataset_shape {c : String} {items : List Item} {t : Triple}
    (ht : t ∈ catalogFacts c items) (hp : t.2.1 = dcatDatasetP) :
    t = (catalogUri c, dcatDatasetP, datasetUri c) := by
  rcases mem_catalogFacts.1 ht with hs | hi | ⟨it, hit, hf⟩
  · unfold structuralFacts at hs
    simp only [Finset.mem_insert, Finset.mem_singleton] at hs
    rcases hs with rfl | rfl | rfl | rfl | rfl | rfl | rfl | rfl | rfl
    all_goals first
      | rfl
      | (dsimp only at hp; exact absurd hp (by decide))
  · obtain ⟨v, _, _, rfl⟩ := mem_identifierFacts hi
    dsimp only at hp
    exact absurd hp (by decide)
  · rcases mem_fileFacts.1 hf with rfl | rfl | rfl | rfl | ⟨e, he, hef⟩
    · dsimp only at hp
      exact absurd hp (by decide)
    · dsimp only at hp
      exact absurd hp (by decide)
    · dsimp only at hp
      exact absurd hp (by decide)
    · dsimp only at hp
      exact absurd hp (by decide)
    · obtain ⟨h1, p, hpA, h2⟩ := elemFacts_shape hef
      rw [h2] at hp
      obtain ⟨hne, _, _⟩ := allProps_ne_structural p hpA
      exact absurd (Term.uri.inj hp) hne

theorem catalogFacts_distribution_shape {c : String} {items : List Item} {t : Triple}
    (ht : t ∈ catalogFacts c items) (hp : t.2.1 = dcatDistributionP) :
    ∃ it ∈ items,
      t = (datasetUri c, dcatDistributionP, distSubject c (basename (it.filePath.getD ""))) := by
  rcases mem_catalogFacts.1 ht with hs | hi | ⟨it, hit, hf⟩
  · unfold structuralFacts at hs
    simp only [Finset.mem_insert, Finset.mem_singleton] at hs
    rcases hs with rfl | rfl | rfl | rfl | rfl | rfl | rfl | rfl | rfl
    all_goals (dsimp only at hp; exact absurd hp (by decide))
  · obtain ⟨v, _, _, rfl⟩ := mem_identifierFacts hi
    dsimp only at hp
    exact absurd hp (by decide)
  · rcases mem_fileFacts.1 hf with rfl | rfl | rfl | rfl | ⟨e, he, hef⟩
    · exact ⟨it, hit, rfl⟩
    · dsimp only at hp
      exact absurd hp (by decide)
    · dsimp only at hp
      exact absurd hp (by decide)
    · dsimp only at hp
      exact absurd hp (by decide)
    · obtain ⟨h1, p, hpA, h2⟩ := elemFacts_shape hef
      rw [h2] at hp
      obtain ⟨_, hne, _⟩ := allProps_ne_structural p hpA
      exact absurd (Term.uri.inj hp) hne

theorem catalogFacts_identifier_shape {c : String} {items : List Item} {t : Triple}
    (ht : t ∈ catalogFacts c items) (hp : t.2.1 = dctermsIdentifierP) :
    ∃ v, studyUidOf items = some v ∧ pyTruthy (some v) = true ∧
      t = (datasetUri c, dctermsIdentifierP, pyLiteral v) := by
  rcases mem_catalogFacts.1 ht with hs | hi | ⟨it, hit, hf⟩
  · unfold structuralFacts at hs
    simp only [Finset.mem_insert, Finset.mem_singleton] at hs
    rcases hs with rfl | rfl | rfl | rfl | rfl | rfl | rfl | rfl | rfl
    all_goals (dsimp only at hp; exact absurd hp (by decide))
  · exact mem_identifierFacts hi
  · rcases mem_fileFacts.1 hf with rfl | rfl | rfl | rfl | ⟨e, he, hef⟩
    · dsimp only at hp
      exact absurd hp (by decide)
    · dsimp only at hp
      exact absurd hp (by decide)
    · dsimp only at hp
      exact absurd hp (by decide)
    · dsimp only at hp
      exact absurd hp (by decide)
    · obtain ⟨h1, p, hpA, h2⟩ := elemFacts_shape hef
      rw [h2] at hp
      obtain ⟨_, _, hne⟩ := allProps_ne_structural p hpA
      exact absurd (Term.uri.inj hp) hne

theorem catalogFacts_subject_shape {c : String} {items : List Item} {t : Triple}
    (ht : t ∈ catalogFacts c items) :
    t.1 = catalogUri c ∨ t.1 = datasetUri c ∨
      ∃ it ∈ items, t.1 = distSubject c (basename (it.filePath.getD "")) := by
  rcases mem_catalogFacts.1 ht with hs | hi | ⟨it, hit, hf⟩
  · unfold structuralFacts at hs
    simp only [Finset.mem_insert, Finset.mem_singleton] at hs
    rcases hs with rfl | rfl | rfl | rfl | rfl | rfl | rfl | rfl | rfl
    · exact Or.inl rfl
    · exact Or.inl rfl
    · exact Or.inl rfl
    · exact Or.inl rfl
    · exact Or.inl rfl
    · exact Or.inl rfl
    · exact Or.inr (Or.inl rfl)
    · exact Or.inr (Or.inl rfl)
    · exact Or.inr (Or.inl rfl)
  · obtain ⟨v, _, _, rfl⟩ := mem_identifierFacts hi
    exact Or.inr (Or.inl rfl)
  · rcases mem_fileFacts.1 hf with rfl | rfl | rfl | rfl | ⟨e, he, hef⟩
    · exact Or.inr (Or.inl rfl)
    · exact Or.inr (Or.inr ⟨it, hit, rfl⟩)
    · exact Or.inr (Or.inr ⟨it, hit, rfl⟩)
    · exact Or.inr (Or.inr ⟨it, hit, rfl⟩)
    · exact Or.inr (Or.inr ⟨it, hit, (elemFacts_shape hef).1⟩)

/-! Shape and membership lemmas over the whole assembled graph. -/

theorem json_dataset_shape {data : List Item} {t : Triple} (ht : t ∈ json_to_rdf data)
    (hp : t.2.1 = dcatDatasetP) :
    ∃ k ∈ catalogKeys data, t = (catalogUri k, dcatDatasetP, datasetUri k) := by
  obtain ⟨k, hk, hc⟩ := mem_json_to_rdf.1 ht
  exact ⟨k, hk, catalogFacts_dataset_shape hc hp⟩

theorem json_distribution_shape {data : List Item} {t : Triple} (ht : t ∈ json_to_rdf data)
    (hp : t.2.1 = dcatDistributionP) :
    ∃ k ∈ catalogKeys data, ∃ it ∈ catalogData data k,
      t = (datasetUri k, dcatDistributionP, distSubject k (basename (it.filePath.getD ""))) := by
  obtain ⟨k, hk, hc⟩ := mem_json_to_rdf.1 ht
  obtain ⟨it, hit, heq⟩ := catalogFacts_distribution_shape hc hp
  exact ⟨k, hk, it, hit, heq⟩

theorem json_identifier_shape {data : List Item} {t : Triple} (ht : t ∈ json_to_rdf data)
    (hp : t.2.1 = dctermsIdentifierP) :
    ∃ k ∈ catalogKeys data, ∃ v, studyUidOf (catalogData data k) = some v ∧
      pyTruthy (some v) = true ∧ t = (datasetUri k, dctermsIdentifierP, pyLiteral v) := by
  obtain ⟨k, hk, hc⟩ := mem_json_to_rdf.1 ht
  obtain ⟨v, h1, h2, h3⟩ := catalogFacts_identifier_shape hc hp
  exact ⟨k, hk, v, h1, h2, h3⟩

theorem catalog_dataset_mem {data : List Item} {k : String} (hk : k ∈ catalogKeys data) :
    (catalogUri k, dcatDatasetP, datasetUri k) ∈ json_to_rdf data := by
  rw [mem_json_to_rdf]
  refine ⟨k, hk, ?_⟩
  rw [mem_catalogFacts]
  left
  unfold structuralFacts
  simp

theorem dataset_type_mem {data : List Item} {k : String} (hk : k ∈ catalogKeys data) :
    (datasetUri k, rdfType, .uri (dcatNS ++ "Dataset")) ∈ json_to_rdf data := by
  rw [mem_json_to_rdf]
  refine ⟨k, hk, ?_⟩
  rw [mem_catalogFacts]
  left
  unfold structuralFacts
  simp

theorem dist_fact_mem {data : List Item} {k : String} {it : Item} (hk : k ∈ catalogKeys data)
    (hit : it ∈ catalogData data k) :
    (datasetUri k, dcatDistributionP, distSubject k (basename (it.filePath.getD ""))) ∈
      json_to_rdf data := by
  rw [mem_json_to_rdf]
  exact ⟨k, hk, mem_catalogFacts.2 (Or.inr (Or.inr ⟨it, hit, mem_fileFacts.2 (Or.inl rfl)⟩))⟩

theorem dist_type_mem {data : List Item} {k : String} {it : Item} (hk : k ∈ catalogKeys data)
    (hit : it ∈ catalogData data k) :
    (distSubject k (basename (it.filePath.getD "")), rdfType, .uri (dcatNS ++ "Distribution")) ∈
      json_to_rdf data := by
  rw [mem_json_to_rdf]
  exact ⟨k, hk,
    mem_catalogFacts.2 (Or.inr (Or.inr ⟨it, hit, mem_fileFacts.2 (Or.inr (Or.inl rfl))⟩))⟩

theorem identifier_fact_mem {data : List Item} {k : String} {v : PyVal}
    (hk : k ∈ catalogKeys data) (hs : studyUidOf (catalogData data k) = some v)
    (hb : pyTruthy (some v) = true) :
    (datasetUri k, dctermsIdentifierP, pyLiteral v) ∈ json_to_rdf data := by
  rw [mem_json_to_rdf]
  refine ⟨k, hk, mem_catalogFacts.2 (Or.inr (Or.inl ?_))⟩
  unfold identifierFacts
  rw [hs]
  show (datasetUri k, dctermsIdentifierP, pyLiteral v) ∈
    (if pyTruthy (some v) = true then
      ({(datasetUri k, dctermsIdentifierP, pyLiteral v)} : Finset Triple) else ∅)
  rw [if_pos hb]
  exact Finset.mem_singleton_self _

/-! Subgraph extraction lemmas. -/

theorem mem_subjTriples {g : Finset Triple} {s : Term} {t : Triple} :
    t ∈ subjTriples g s ↔ t ∈ g ∧ t.1 = s := Finset.mem_filter

theorem extractGraph_sub {g : Finset Triple} {c : String} {t : Triple}
    (ht : t ∈ extractGraph g c) : t ∈ g := by
  unfold extractGraph at ht
  rw [Finset.mem_union] at ht
  rcases ht with h | h
  · exact (mem_subjTriples.1 h).1
  · rw [Finset.mem_biUnion] at h
    obtain ⟨t0, _, hin⟩ := h
    by_cases hP : t0.2.1 = dcatDatasetP
    · rw [if_pos hP, Finset.mem_union] at hin
      rcases hin with h2 | h2
      · exact (mem_subjTriples.1 h2).1
      · rw [Finset.mem_biUnion] at h2
        obtain ⟨t2, _, hin2⟩ := h2
        by_cases hP2 : t2.2.1 = dcatDistributionP ∧ isBNode t2.2.2 = false
        · rw [if_pos hP2] at hin2
          exact (mem_subjTriples.1 hin2).1
        · rw [if_neg hP2] at hin2
          exact absurd hin2 (Finset.not_mem_empty t)
    · rw [if_neg hP] at hin
      exact absurd hin (Finset.not_mem_empty t)

theorem mem_extractGraph_cases {g : Finset Triple} {c : String} {t : Triple}
    (ht : t ∈ extractGraph g c) :
    t.1 = catalogUri c ∨
    (∃ t0 ∈ g, t0.1 = catalogUri c ∧ t0.2.1 = dcatDatasetP ∧ t.1 = t0.2.2) ∨
    (∃ t2 ∈ g, t2.2.1 = dcatDistributionP ∧
      (∃ t0 ∈ g, t0.1 = catalogUri c ∧ t0.2.1 = dcatDatasetP ∧ t2.1 = t0.2.2) ∧
      t.1 = t2.2.2) := by
  unfold extractGraph at ht
  rw [Finset.mem_union] at ht
  rcases ht with h | h
  · exact Or.inl (mem_subjTriples.1 h).2
  · rw [Finset.mem_biUnion] at h
    obtain ⟨t0, ht0, hin⟩ := h
    rw [mem_subjTriples] at ht0
    by_cases hP : t0.2.1 = dcatDatasetP
    · rw [if_pos hP, Finset.mem_union] at hin
      rcases hin with h2 | h2
      · rw [mem_subjTriples] at h2
        exact Or.inr (Or.inl ⟨t0, ht0.1, ht0.2, hP, h2.2⟩)
      · rw [Finset.mem_biUnion] at h2
        obtain ⟨t2, ht2, hin2⟩ := h2
        rw [mem_subjTriples] at ht2
        by_cases hP2 : t2.2.1 = dcatDistributionP ∧ isBNode t2.2.2 = false
        · rw [if_pos hP2] at hin2
          rw [mem_subjTriples] at hin2
          exact Or.inr (Or.inr ⟨t2, ht2.1, hP2.1, ⟨t0, ht0.1, ht0.2, hP, ht2.2⟩, hin2.2⟩)
        · rw [if_neg hP2] at hin2
          exact absurd hin2 (Finset.not_mem_empty t)
    · rw [if_neg hP] at hin
      exact absurd hin (Finset.not_mem_empty t)

theorem subjTriples_sub_extract_of_dataset {g : Finset Triple} {c : String} {t0 : Triple}
    (ht0 : t0 ∈ g) (h1 : t0.1 = catalogUri c) (h2 : t0.2.1 = dcatDatasetP) :
    subjTriples g t0.2.2 ⊆ extractGraph g c := by
  intro t ht
  unfold extractGraph
  apply Finset.mem_union_right
  rw [Finset.mem_biUnion]
  refine ⟨t0, mem_subjTriples.2 ⟨ht0, h1⟩, ?_⟩
  rw [if_pos h2]
  exact Finset.mem_union_left _ ht

theorem subjTriples_sub_extract_of_dist {g : Finset Triple} {c : String} {t0 t2 : Triple}
    (ht0 : t0 ∈ g) (h1 : t0.1 = catalogUri c) (h2 : t0.2.1 = dcatDatasetP)
    (ht2 : t2 ∈ g) (h3 : t2.1 = t0.2.2) (h4 : t2.2.1 = dcatDistributionP)
    (h5 : isBNode t2.2.2 = false) :
    subjTriples g t2.2.2 ⊆ extractGraph g c := by
  intro t ht
  unfold extractGraph
  apply Finset.mem_union_right
  rw [Finset.mem_biUnion]
  refine ⟨t0, mem_subjTriples.2 ⟨ht0, h1⟩, ?_⟩
  rw [if_pos h2]
  apply Finset.mem_union_right
  rw [Finset.mem_biUnion]
  refine ⟨t2, mem_subjTriples.2 ⟨ht2, h3⟩, ?_⟩
  rw [if_pos (⟨h4, h5⟩ : t2.2.1 = dcatDistributionP ∧ isBNode t2.2.2 = false)]
  exact ht

/-- C4 counterexample: as stated over every graph, closure fails. In the
one-fact graph whose catalog subject has a dataset fact with a dangling
object, the extracted subgraph contains the catalog→dataset fact but its
object is not a subject of any extracted fact. -/
theorem C4_counterexample :
    ¬ ClosedSubgraph (extractGraph
      ({(catalogUri "c", dcatDatasetP, Term.uri "http://example.org/ds")} : Finset Triple)
      "c") := by
  decide

/-- C4 (amended): for every graph assembled by json_to_rdf_multiple_catalogs
and every catalog name, the subgraph returned by the Subgraph Extractor is
closed: every object node referenced by a catalog-to-dataset or
dataset-to-distribution fact contained in the extracted subgraph also
appears as the subject of at least one fact in that same subgraph. -/
theorem C4_theorem : ∀ (data : List Item) (c : String),
    ClosedSubgraph (extractGraph (json_to_rdf data) c) := by
  intro data c t ht hpred
  have htG : t ∈ json_to_rdf data := extractGraph_sub ht
  rcases hpred with hds | hdist
  · obtain ⟨k, hk, rfl⟩ := json_dataset_shape htG hds
    rcases mem_extractGraph_cases ht with h1 | ⟨t0, ht0, h1, h2, h3⟩ |
      ⟨t2, ht2, h4, ⟨t0, ht0, h1, h2, h3⟩, h6⟩
    · dsimp only at h1
      obtain rfl := catalogUri_inj h1
      refine ⟨(datasetUri k, rdfType, .uri (dcatNS ++ "Dataset")), ?_, rfl⟩
      exact subjTriples_sub_extract_of_dataset htG rfl rfl
        (mem_subjTriples.2 ⟨dataset_type_mem hk, rfl⟩)
    · obtain ⟨k0, hk0, rfl⟩ := json_dataset_shape ht0 h2
      dsimp only at h3
      exact absurd h3 (catalogUri_ne_datasetUri k k0)
    · obtain ⟨k2, hk2, it2, hit2, rfl⟩ := json_distribution_shape ht2 h4
      dsimp only at h6
      exact absurd h6.symm (distSubject_ne_catalogUri _ _ _)
  · obtain ⟨k, hk, it, hit, rfl⟩ := json_distribution_shape htG hdist
    rcases mem_extractGraph_cases ht with h1 | ⟨t0, ht0, h1, h2, h3⟩ |
      ⟨t2, ht2, h4, ⟨t0, ht0, h1, h2, h3⟩, h6⟩
    · dsimp only at h1
      exact absurd h1.symm (catalogUri_ne_datasetUri c k)
    · obtain ⟨k0, hk0, rfl⟩ := json_dataset_shape ht0 h2
      dsimp only at h1 h3
      obtain rfl := catalogUri_inj h1
      obtain rfl := datasetUri_inj h3
      refine ⟨(distSubject k (basename (it.filePath.getD "")), rdfType,
        .uri (dcatNS ++ "Distribution")), ?_, rfl⟩
      exact subjTriples_sub_extract_of_dist ht0 rfl rfl htG rfl rfl rfl
        (mem_subjTriples.2 ⟨dist_type_mem hk hit, rfl⟩)
    · obtain ⟨k2, hk2, it2, hit2, rfl⟩ := json_distribution_shape ht2 h4
      dsimp only at h6
      exact absurd h6.symm (distSubject_ne_datasetUri _ _ _)

/-- C5: subgraph export fails with a Not-Found condition (no document at
all) exactly when the constructed catalog URI is the subject of no fact in
the graph, and succeeds with the extracted subgraph exactly when that URI
is the subject of at least one fact. -/
theorem C5_theorem : ∀ (g : Finset Triple) (c : String),
    (download_catalog_rdf_file g c = none ↔ ∀ t ∈ g, t.1 ≠ catalogUri c) ∧
    ((∃ t ∈ g, t.1 = catalogUri c) ↔
      download_catalog_rdf_file g c = some (extractGraph g c)) := by
  intro g c
  unfold download_catalog_rdf_file
  by_cases h : subjTriples g (catalogUri c) = ∅
  · rw [if_pos h]
    constructor
    · constructor
      · intro _ t htg heq
        have hmem : t ∈ subjTriples g (catalogUri c) := mem_subjTriples.2 ⟨htg, heq⟩
        rw [h] at hmem
        exact absurd hmem (Finset.not_mem_empty t)
      · intro _
        rfl
    · constructor
      · rintro ⟨t, htg, heq⟩
        have hmem : t ∈ subjTriples g (catalogUri c) := mem_subjTriples.2 ⟨htg, heq⟩
        rw [h] at hmem
        exact absurd hmem (Finset.not_mem_empty t)
      · intro hcontr
        exact absurd hcontr (by simp)
  · rw [if_neg h]
    have hne : ∃ t ∈ g, t.1 = catalogUri c := by
      obtain ⟨t, htm⟩ := Finset.nonempty_iff_ne_empty.2 h
      exact ⟨t, (mem_subjTriples.1 htm).1, (mem_subjTriples.1 htm).2⟩
    constructor
    · constructor
      · intro hcontr
        exact absurd hcontr (by simp)
      · intro hall
        obtain ⟨t, htg, heq⟩ := hne
        exact absurd heq (hall t htg)
    · exact ⟨fun _ => rfl, fun _ => hne⟩

/-- C1 counterexample: two distinct input files with the same basename but
different directory paths (same catalog segment) receive the same
Distribution subject URI, refuting the claimed uniqueness; the URI uses
catalog name and basename, not the full path. -/
theorem C1_counterexample :
    (⟨some "/catA/s1/x.dcm", []⟩ : Item) ≠ (⟨some "/catA/s2/x.dcm", []⟩ : Item) ∧
    ((⟨some "/catA/s1/x.dcm", []⟩ : Item)).filePath ≠
      ((⟨some "/catA/s2/x.dcm", []⟩ : Item)).filePath ∧
    basename "/catA/s1/x.dcm" = basename "/catA/s2/x.dcm" ∧
    catalogKey (⟨some "/catA/s1/x.dcm", []⟩ : Item) = some "catA" ∧
    catalogKey (⟨some "/catA/s2/x.dcm", []⟩ : Item) = some "catA" ∧
    distSubject "catA" (basename ((⟨some "/catA/s1/x.dcm", []⟩ : Item).filePath.getD "")) =
      distSubject "catA" (basename ((⟨some "/catA/s2/x.dcm", []⟩ : Item).filePath.getD "")) := by
  decide

/-- C1 (amended): the Distribution subject URI is built from the file's
catalog key (second normalized path segment) and the basename of its path
joined by an underscore; for two files with equal basenames the URIs are
distinct precisely when the catalog keys differ, and collide when the keys
agree. -/
theorem C1_theorem : ∀ (i1 i2 : Item) (c1 c2 : String),
    catalogKey i1 = some c1 → catalogKey i2 = some c2 →
    basename (i1.filePath.getD "") = basename (i2.filePath.getD "") →
    (distSubject c1 (basename (i1.filePath.getD "")) =
      distSubject c2 (basename (i2.filePath.getD "")) ↔ c1 = c2) := by
  intro i1 i2 c1 c2 h1 h2 hb
  constructor
  · intro h
    rw [hb] at h
    exact distSubject_inj_sid h
  · intro h
    rw [hb, h]

/-- C1 witness: the amended theorem applied to two concrete files with the
same basename in different catalogs yields distinct Distribution URIs. -/
theorem C1_witness :
    distSubject "catA" (basename ((⟨some "/catA/s1/x.dcm", []⟩ : Item).filePath.getD "")) ≠
      distSubject "catB" (basename ((⟨some "/catB/s1/x.dcm", []⟩ : Item).filePath.getD "")) := by
  have h := C1_theorem ⟨some "/catA/s1/x.dcm", []⟩ ⟨some "/catB/s1/x.dcm", []⟩ "catA" "catB"
    (by decide) (by decide) (by decide)
  intro heq
  exact absurd (h.1 heq) (by decide)

/-- C2 counterexample: a file with no recognizable study-identifier element
is grouped under the Dataset node keyed by its catalog name; no
"unknown_study" sentinel appears anywhere in the assembled graph. -/
theorem C2_counterexample :
    (datasetUri "catalogB", dcatDistributionP, distSubject "catalogB" "c.dcm") ∈
      json_to_rdf [⟨some "/catalogB/study2/c.dcm",
        [⟨some "Modality", some "CS", some (.pstr "CT")⟩]⟩] ∧
    (∀ t ∈ json_to_rdf [⟨some "/catalogB/study2/c.dcm",
        [⟨some "Modality", some "CS", some (.pstr "CT")⟩]⟩],
      t.1 ≠ datasetUri "unknown_study" ∧ t.2.2 ≠ datasetUri "unknown_study" ∧
      t.2.2 ≠ Term.lit (.ofStr "unknown_study") none) := by
  decide

/-- C2 (amended): the dataset key is the catalog key (the second normalized
path segment), one Dataset node per catalog; the study-identifier value of
the catalog's first file, when present and truthy, is attached as a
dcterms:identifier fact, and when absent or falsy no identifier fact for
that dataset exists in the graph; no "unknown_study" sentinel is used. -/
theorem C2_theorem : ∀ (data : List Item) (k : String), k ∈ catalogKeys data →
    ((catalogUri k, dcatDatasetP, datasetUri k) ∈ json_to_rdf data ∧
     (∀ it ∈ catalogData data k,
        (datasetUri k, dcatDistributionP,
          distSubject k (basename (it.filePath.getD ""))) ∈ json_to_rdf data) ∧
     (∀ v, studyUidOf (catalogData data k) = some v → pyTruthy (some v) = true →
        (datasetUri k, dctermsIdentifierP, pyLiteral v) ∈ json_to_rdf data) ∧
     (pyTruthy (studyUidOf (catalogData data k)) = false →
        ∀ o, (datasetUri k, dctermsIdentifierP, o) ∉ json_to_rdf data)) := by
  intro data k hk
  refine ⟨catalog_dataset_mem hk, fun it hit => dist_fact_mem hk hit,
    fun v hs hb => identifier_fact_mem hk hs hb, ?_⟩
  intro hfalse o hmem
  obtain ⟨k2, hk2, v, hs, hb, heq⟩ := json_identifier_shape hmem rfl
  have h1 : datasetUri k = datasetUri k2 := congrArg Prod.fst heq
  obtain rfl := datasetUri_inj h1
  rw [hs, hb] at hfalse
  exact absurd hfalse (by decide)

/-- C2 witness: in a one-file graph whose file carries no study-identifier
record, the Dataset node is keyed by the catalog name and carries no
identifier fact, in particular none with value "unknown_study". -/
theorem C2_witness :
    (catalogUri "catalogB", dcatDatasetP, datasetUri "catalogB") ∈
      json_to_rdf [⟨some "/catalogB/study2/c.dcm",
        [⟨some "Modality", some "CS", some (.pstr "CT")⟩]⟩] ∧
    (datasetUri "catalogB", dctermsIdentifierP, Term.lit (.ofStr "unknown_study") none) ∉
      json_to_rdf [⟨some "/catalogB/study2/c.dcm",
        [⟨some "Modality", some "CS", some (.pstr "CT")⟩]⟩] := by
  have h := C2_theorem [⟨some "/catalogB/study2/c.dcm",
    [⟨some "Modality", some "CS", some (.pstr "CT")⟩]⟩] "catalogB" (by decide)
  exact ⟨h.1, h.2.2.2 (by decide) _⟩

/-! Extensionality of the assembled graph in its grouped inputs. -/

theorem studyUidOf_eq_of_head {items1 items2 : List Item}
    (h : items1.head? = items2.head?) : studyUidOf items1 = studyUidOf items2 := by
  cases items1 with
  | nil =>
    cases items2 with
    | nil => rfl
    | cons b l2 => simp at h
  | cons a l1 =>
    cases items2 with
    | nil => simp at h
    | cons b l2 =>
      obtain rfl : a = b := by simpa using h
      rfl

theorem catalogFacts_ext {c : String} {items1 items2 : List Item}
    (hhead : items1.head? = items2.head?)
    (hmem : ∀ it, it ∈ items1 ↔ it ∈ items2) :
    catalogFacts c items1 = catalogFacts c items2 := by
  unfold catalogFacts
  have hid : identifierFacts c items1 = identifierFacts c items2 := by
    unfold identifierFacts
    rw [studyUidOf_eq_of_head hhead]
  have hfiles : items1.foldl (fun acc it => acc ∪ fileFacts c it) ∅ =
      items2.foldl (fun acc it => acc ∪ fileFacts c it) ∅ := by
    apply Finset.ext
    intro t
    rw [mem_foldl_union, mem_foldl_union]
    simp only [Finset.not_mem_empty, false_or]
    constructor
    · rintro ⟨it, hit, h⟩
      exact ⟨it, (hmem it).1 hit, h⟩
    · rintro ⟨it, hit, h⟩
      exact ⟨it, (hmem it).2 hit, h⟩
  rw [hid, hfiles]

theorem json_to_rdf_ext {data1 data2 : List Item}
    (hkeys : ∀ k, k ∈ catalogKeys data1 ↔ k ∈ catalogKeys data2)
    (hhead : ∀ k, (catalogData data1 k).head? = (catalogData data2 k).head?)
    (hmem : ∀ k it, it ∈ catalogData data1 k ↔ it ∈ catalogData data2 k) :
    json_to_rdf data1 = json_to_rdf data2 := by
  apply Finset.ext
  intro t
  rw [mem_json_to_rdf, mem_json_to_rdf]
  constructor
  · rintro ⟨k, hk, hc⟩
    refine ⟨k, (hkeys k).1 hk, ?_⟩
    rw [← catalogFacts_ext (hhead k) (hmem k)]
    exact hc
  · rintro ⟨k, hk, hc⟩
    refine ⟨k, (hkeys k).2 hk, ?_⟩
    rw [catalogFacts_ext (hhead k) (hmem k)]
    exact hc

/-- C6 counterexample: the final Graph content DOES depend on insertion
order: swapping two same-catalog files with different Study Instance UIDs
changes the dataset identifier fact, which is taken from the catalog's
first file. -/
theorem C6_counterexample :
    json_to_rdf
        [⟨some "/c/s/a", [⟨some "Study Instance UID", some "UI", some (.pstr "S1")⟩]⟩,
         ⟨some "/c/s/b", [⟨some "Study Instance UID", some "UI", some (.pstr "S2")⟩]⟩] ≠
      json_to_rdf
        [⟨some "/c/s/b", [⟨some "Study Instance UID", some "UI", some (.pstr "S2")⟩]⟩,
         ⟨some "/c/s/a", [⟨some "Study Instance UID", some "UI", some (.pstr "S1")⟩]⟩] := by
  decide

/-- C6 (amended): graph assembly has set semantics in the sense that
re-ingesting a file already present leaves the Graph unchanged, and the
Graph depends on its input only through each catalog's member set and
first file; insertion order matters only through the first file of each
catalog, whose study identifier becomes the dataset identifier fact. -/
theorem C6_theorem :
    (∀ (data : List Item) (item : Item), item ∈ data →
       json_to_rdf (data ++ [item]) = json_to_rdf data) ∧
    (∀ data1 data2 : List Item,
       (∀ k, k ∈ catalogKeys data1 ↔ k ∈ catalogKeys data2) →
       (∀ k, (catalogData data1 k).head? = (catalogData data2 k).head?) →
       (∀ k it, it ∈ catalogData data1 k ↔ it ∈ catalogData data2 k) →
       json_to_rdf data1 = json_to_rdf data2) := by
  constructor
  · intro data item hitem
    apply json_to_rdf_ext
    · intro k
      unfold catalogKeys
      rw [List.filterMap_append]
      simp only [List.mem_append]
      constructor
      · rintro (h | h)
        · exact h
        · obtain ⟨a, ha, hk⟩ := List.mem_filterMap.1 h
          have haeq : a = item := by simpa using ha
          rw [haeq] at hk
          exact List.mem_filterMap.2 ⟨item, hitem, hk⟩
      · exact fun h => Or.inl h
    · intro k
      unfold catalogData
      rw [List.filter_append]
      by_cases hck : catalogKey item = some k
      · have hfil : List.filter (fun it => decide (catalogKey it = some k)) [item] = [item] := by
          simp [List.filter_cons, hck]
        rw [hfil]
        have hne : item ∈ List.filter (fun it => decide (catalogKey it = some k)) data :=
          List.mem_filter.2 ⟨hitem, by simp [hck]⟩
        cases hfd : List.filter (fun it => decide (catalogKey it = some k)) data with
        | nil =>
          rw [hfd] at hne
          exact absurd hne (List.not_mem_nil item)
        | cons a l =>
          rfl
      · have hfil : List.filter (fun it => decide (catalogKey it = some k)) [item] = [] := by
          simp [List.filter_cons, hck]
        rw [hfil, List.append_nil]
    · intro k it
      unfold catalogData
      rw [List.filter_append]
      simp only [List.mem_append]
      constructor
      · rintro (h | h)
        · exact h
        · obtain ⟨hmem1, hp⟩ := List.mem_filter.1 h
          have haeq : it = item := by simpa using hmem1
          rw [haeq] at hp ⊢
          exact List.mem_filter.2 ⟨hitem, hp⟩
      · exact fun h => Or.inl h
  · exact fun data1 data2 h1 h2 h3 => json_to_rdf_ext h1 h2 h3

/-- C6 witness: re-ingesting the one file of a one-file batch leaves the
graph unchanged, and swapping two files of different catalogs leaves the
graph unchanged. -/
theorem C6_witness :
    json_to_rdf ([⟨some "/c/s/a", []⟩] ++ [⟨some "/c/s/a", []⟩]) =
      json_to_rdf [⟨some "/c/s/a", []⟩] ∧
    json_to_rdf [⟨some "/ca/x", []⟩, ⟨some "/cb/y", []⟩] =
      json_to_rdf [⟨some "/cb/y", []⟩, ⟨some "/ca/x", []⟩] := by
  constructor
  · exact C6_theorem.1 [⟨some "/c/s/a", []⟩] ⟨some "/c/s/a", []⟩ (by decide)
  · apply C6_theorem.2
    · intro k
      rw [show catalogKeys [⟨some "/ca/x", []⟩, ⟨some "/cb/y", []⟩] = ["ca", "cb"] from by decide,
         show catalogKeys [⟨some "/cb/y", []⟩, ⟨some "/ca/x", []⟩] = ["cb", "ca"] from by decide]
      simp only [List.mem_cons, List.not_mem_nil, or_false]
      tauto
    · intro k
      unfold catalogData
      by_cases h1 : catalogKey ⟨some "/ca/x", []⟩ = some k
      · by_cases h2 : catalogKey ⟨some "/cb/y", []⟩ = some k
        · exfalso
          rw [show catalogKey (⟨some "/ca/x", []⟩ : Item) = some "ca" from by decide] at h1
          rw [show catalogKey (⟨some "/cb/y", []⟩ : Item) = some "cb" from by decide] at h2
          obtain rfl := Option.some.inj h1
          exact absurd (Option.some.inj h2) (by decide)
        · simp [List.filter_cons, h1, h2]
      · by_cases h2 : catalogKey ⟨some "/cb/y", []⟩ = some k
        · simp [List.filter_cons, h1, h2]
        · simp [List.filter_cons, h1, h2]
    · intro k it
      unfold catalogData
      simp only [List.mem_filter, List.mem_cons, List.not_mem_nil, or_false]
      tauto

/-! Value coercion claims. -/

/-- C7: numeric coercion yields Integer(123) for "123", the exact decimal
123.5 for "123.5" (a Decimal result occurs only when the textual form
contains a dot), passes bracketed list-looking strings through as Text, and
falls back to Text of the original string when numeric parsing fails. -/
theorem C7_theorem :
    (parse_value (some (.pstr "123")) (some "IS") =
      some (.lit (.ofInt 123) (some (xsdNS ++ "integer")))) ∧
    (parse_value (some (.pstr "123.5")) (some "DS") =
      some (.lit (.ofDec 1235 1) (some (xsdNS ++ "decimal")))) ∧
    (parse_value (some (.pstr "[1,2,3]")) (some "DS") =
      some (.lit (.ofStr "[1,2,3]") none)) ∧
    (∀ (v : PyVal) (vr : String),
      (vr = "DS" ∨ vr = "IS" ∨ vr = "FD" ∨ vr = "US") →
      ∀ (n : Int) (e : Nat) (dt : Option String),
        parse_value (some v) (some vr) = some (.lit (.ofDec n e) dt) →
        '.' ∈ (pyStr v).data) ∧
    (∀ (s : String) (vr : String),
      (vr = "DS" ∨ vr = "IS" ∨ vr = "FD" ∨ vr = "US") →
      ¬(pyStartsWith s "[" = true ∧ pyEndsWith s "]" = true) →
      (('.' ∈ s.data ∧ pyFloat s = none) ∨ ('.' ∉ s.data ∧ pyInt s = none)) →
      parse_value (some (.pstr s)) (some vr) = some (.lit (.ofStr s) none)) := by
  refine ⟨by decide, by decide, by decide, ?_, ?_⟩
  · intro v vr hvr n e dt h
    have hc : some vr = some "DS" ∨ some vr = some "IS" ∨
        some vr = some "FD" ∨ some vr = some "US" := by
      rcases hvr with rfl | rfl | rfl | rfl
      · exact Or.inl rfl
      · exact Or.inr (Or.inl rfl)
      · exact Or.inr (Or.inr (Or.inl rfl))
      · exact Or.inr (Or.inr (Or.inr rfl))
    unfold parse_value at h
    dsimp only at h
    rw [if_pos hc] at h
    by_cases hbr : (isStr v = true ∧ pyStartsWith (pyStr v) "[" = true ∧
        pyEndsWith (pyStr v) "]" = true)
    · rw [if_pos hbr] at h
      simp at h
    · rw [if_neg hbr] at h
      by_cases hdot : '.' ∈ (pyStr v).data
      · exact hdot
      · rw [if_neg hdot] at h
        cases hi : pyIntVal v with
        | some m =>
          rw [hi] at h
          simp at h
        | none =>
          rw [hi] at h
          simp at h
  · intro s vr hvr hnbr hfail
    have hc : some vr = some "DS" ∨ some vr = some "IS" ∨
        some vr = some "FD" ∨ some vr = some "US" := by
      rcases hvr with rfl | rfl | rfl | rfl
      · exact Or.inl rfl
      · exact Or.inr (Or.inl rfl)
      · exact Or.inr (Or.inr (Or.inl rfl))
      · exact Or.inr (Or.inr (Or.inr rfl))
    unfold parse_value
    dsimp only
    rw [if_pos hc]
    have hbr : ¬(isStr (PyVal.pstr s) = true ∧ pyStartsWith (pyStr (.pstr s)) "[" = true ∧
        pyEndsWith (pyStr (.pstr s)) "]" = true) := by
      intro hx
      exact hnbr ⟨hx.2.1, hx.2.2⟩
    rw [if_neg hbr]
    simp only [pyStr]
    rcases hfail with ⟨hdot, hf⟩ | ⟨hdot, hf⟩
    · rw [if_pos hdot]
      show (match pyFloatVal (.pstr s) with
        | some p => some (Term.lit (.ofDec p.1 p.2) (some (xsdNS ++ "decimal")))
        | none => some (Term.lit (.ofStr s) none)) = some (Term.lit (.ofStr s) none)
      have hfv : pyFloatVal (.pstr s) = none := hf
      rw [hfv]
    · rw [if_neg hdot]
      show (match pyIntVal (.pstr s) with
        | some n => some (Term.lit (.ofInt n) (some (xsdNS ++ "integer")))
        | none => some (Term.lit (.ofStr s) none)) = some (Term.lit (.ofStr s) none)
      have hfv : pyIntVal (.pstr s) = none := hf
      rw [hfv]

/-- C7 witness: the dot-implies-Decimal direction at "12.5", and the Text
fallback at the unparseable "1.2.3" and "12x". -/
theorem C7_witness :
    ('.' ∈ ("12.5" : String).data) ∧
    parse_value (some (.pstr "1.2.3")) (some "DS") = some (.lit (.ofStr "1.2.3") none) ∧
    parse_value (some (.pstr "12x")) (some "IS") = some (.lit (.ofStr "12x") none) := by
  refine ⟨?_, ?_, ?_⟩
  · exact C7_theorem.2.2.2.1 (.pstr "12.5") "DS" (Or.inl rfl) 125 1
      (some (xsdNS ++ "decimal")) (by decide)
  · exact C7_theorem.2.2.2.2 "1.2.3" "DS" (Or.inl rfl) (by decide)
      (Or.inl ⟨by decide, by decide⟩)
  · exact C7_theorem.2.2.2.2 "12x" "IS" (Or.inr (Or.inl rfl)) (by decide)
      (Or.inr ⟨by decide, by decide⟩)

/-- C8: Date coercion turns an 8-character digit string YYYYMMDD into a
Date literal formatted YYYY-MM-DD, and returns any string of any other
length unchanged as a plain Text literal, raising no error. -/
theorem C8_theorem :
    (∀ y m d : List Char, y.length = 4 → m.length = 2 → d.length = 2 →
      allDigits (y ++ m ++ d) = true →
      parse_value (some (.pstr (String.mk (y ++ m ++ d)))) (some "DA") =
        some (.lit (.ofStr (String.mk y ++ "-" ++ String.mk m ++ "-" ++ String.mk d))
          (some (xsdNS ++ "date")))) ∧
    (∀ s : String, s.length ≠ 8 →
      parse_value (some (.pstr s)) (some "DA") = some (.lit (.ofStr s) none)) := by
  constructor
  · intro y m d hy hm hd _hdig
    unfold parse_value
    dsimp only
    rw [if_neg (by decide)]
    rw [if_pos rfl]
    simp only [pyStr]
    have hlen : (String.mk (y ++ m ++ d)).length = 8 := by
      show (y ++ m ++ d).length = 8
      simp [hy, hm, hd]
    rw [if_pos hlen]
    have hym : (y ++ m).length = 6 := by simp [hy, hm]
    have ha : (y ++ m) ++ d = y ++ (m ++ d) := List.append_assoc y m d
    rw [List.drop_left' hym]
    rw [ha, List.take_left' hy, List.drop_left' hy, List.take_left' hm,
      List.take_of_length_le (le_of_eq hd)]
  · intro s hlen
    unfold parse_value
    dsimp only
    rw [if_neg (by decide)]
    rw [if_pos rfl]
    simp only [pyStr]
    rw [if_neg hlen]

/-- C8 witness: the concrete date "20250810" is reformatted to 2025-08-10,
and the 6-character string "202508" is passed through unchanged. -/
theorem C8_witness :
    parse_value (some (.pstr "20250810")) (some "DA") =
      some (.lit (.ofStr "2025-08-10") (some (xsdNS ++ "date"))) ∧
    parse_value (some (.pstr "202508")) (some "DA") =
      some (.lit (.ofStr "202508") none) := by
  constructor
  · have h := C8_theorem.1 "2025".data "08".data "10".data
      (by decide) (by decide) (by decide) (by decide)
    rw [show String.mk ("2025".data ++ "08".data ++ "10".data) = "20250810" by decide] at h
    rw [show String.mk "2025".data ++ "-" ++ String.mk "08".data ++ "-" ++
      String.mk "10".data = "2025-08-10" by decide] at h
    exact h
  · exact C8_theorem.2 "202508" (by decide)

theorem elemFacts_eval {subj : Term} {name : String} {vr : Option String} {v : PyVal}
    {props : List String} (h : mapping.lookup name = some props) :
    elemFacts subj ⟨some name, vr, some v⟩ =
      (props.filterMap (propFact subj vr v)).toFinset := by
  unfold elemFacts
  dsimp only
  rw [h]

theorem parse_value_some (v : PyVal) (vr : Option String) :
    ∃ l, parse_value (some v) vr = some l := by
  unfold parse_value
  dsimp only
  by_cases h1 : (vr = some "DS" ∨ vr = some "IS" ∨ vr = some "FD" ∨ vr = some "US")
  · rw [if_pos h1]
    by_cases h2 : (isStr v = true ∧ pyStartsWith (pyStr v) "[" = true ∧
        pyEndsWith (pyStr v) "]" = true)
    · rw [if_pos h2]
      exact ⟨_, rfl⟩
    · rw [if_neg h2]
      by_cases h3 : '.' ∈ (pyStr v).data
      · rw [if_pos h3]
        cases hf : pyFloatVal v with
        | some p => exact ⟨_, rfl⟩
        | none => exact ⟨_, rfl⟩
      · rw [if_neg h3]
        cases hf : pyIntVal v with
        | some n => exact ⟨_, rfl⟩
        | none => exact ⟨_, rfl⟩
  · rw [if_neg h1]
    by_cases h4 : vr = some "DA"
    · rw [if_pos h4]
      by_cases h5 : (pyStr v).length = 8
      · rw [if_pos h5]
        exact ⟨_, rfl⟩
      · rw [if_neg h5]
        exact ⟨_, rfl⟩
    · rw [if_neg h4]
      by_cases h6 : vr = some "TM"
      · rw [if_pos h6]
        exact ⟨_, rfl⟩
      · rw [if_neg h6]
        exact ⟨_, rfl⟩

/-- C9: for a record named "Body Part Examined" carrying a string value,
exactly one fact is emitted under the anatomical-site predicate, and its
object is the SNOMED concept URI from the static table when the upper-cased
value is found there, and the original text as a plain literal otherwise. -/
theorem C9_theorem : ∀ (subj : Term) (vr : Option String) (v : String),
    ((elemFacts subj ⟨some "Body Part Examined", vr, some (.pstr v)⟩).filter
        (fun t => t.2.1 = Term.uri rooHasAnatomicSite) =
      {(subj, Term.uri rooHasAnatomicSite, anatomicObject v)}) ∧
    (∀ u, snomed_mapping.lookup (pyUpper v) = some u →
      anatomicObject v = Term.uri u) ∧
    (snomed_mapping.lookup (pyUpper v) = none →
      anatomicObject v = .lit (.ofStr v) none) := by
  intro subj vr v
  refine ⟨?_, ?_, ?_⟩
  · rw [elemFacts_eval (show mapping.lookup "Body Part Examined" =
      some [rooHasAnatomicSite, dicomNS ++ "BodyPartExamined"] by decide)]
    rw [List.filterMap_cons, List.filterMap_cons, List.filterMap_nil]
    have h1 : propFact subj vr (.pstr v) rooHasAnatomicSite =
        some (subj, Term.uri rooHasAnatomicSite, anatomicObject v) := by
      unfold propFact
      rw [if_pos ⟨rfl, rfl⟩]
      rfl
    obtain ⟨l, hl⟩ := parse_value_some (.pstr v) vr
    have h2 : propFact subj vr (.pstr v) (dicomNS ++ "BodyPartExamined") =
        some (subj, Term.uri (dicomNS ++ "BodyPartExamined"), l) := by
      unfold propFact
      rw [if_neg (fun hx => absurd hx.1 (by decide))]
      rw [hl]
      rfl
    rw [h1, h2]
    apply Finset.ext
    intro t
    simp only [List.toFinset_cons, List.toFinset_nil, insert_emptyc_eq,
      Finset.mem_filter, Finset.mem_insert, Finset.mem_singleton]
    constructor
    · rintro ⟨rfl | rfl, hp⟩
      · rfl
      · exact absurd hp (by dsimp only; decide)
    · rintro rfl
      exact ⟨Or.inl rfl, rfl⟩
  · intro u hu
    unfold anatomicObject
    rw [hu]
  · intro hu
    unfold anatomicObject
    rw [hu]

/-- C9 witness: the hit "thyroid" maps to the SNOMED thyroid concept URI
and the miss "BRAIN" stays a plain text literal; the filtered emission is
the single anatomical-site fact. -/
theorem C9_witness :
    ((elemFacts (Term.uri "http://example.org/dicom/c_f")
        ⟨some "Body Part Examined", some "CS", some (.pstr "thyroid")⟩).filter
        (fun t => t.2.1 = Term.uri rooHasAnatomicSite) =
      {(Term.uri "http://example.org/dicom/c_f", Term.uri rooHasAnatomicSite,
        anatomicObject "thyroid")}) ∧
    anatomicObject "thyroid" = Term.uri (snomedNS ++ "111160001") ∧
    anatomicObject "BRAIN" = Term.lit (.ofStr "BRAIN") none := by
  refine ⟨(C9_theorem _ (some "CS") "thyroid").1,
    (C9_theorem (Term.uri "x") none "thyroid").2.1 _ (by decide),
    (C9_theorem (Term.uri "x") none "BRAIN").2.2 (by decide)⟩

/-- C10: a record whose value is absent produces no facts even when its
name is mapped, and a record whose name is not in the mapping table
produces no facts; only records with both a mapped name and a non-None
value emit anything. -/
theorem C10_theorem :
    (∀ (subj : Term) (name : Option String) (vr : Option String),
      elemFacts subj ⟨name, vr, none⟩ = ∅) ∧
    (∀ (subj : Term) (e : Elem) (name : String), e.name = some name →
      mapping.lookup name = none → elemFacts subj e = ∅) := by
  constructor
  · intro subj name vr
    cases name with
    | none => rfl
    | some n => rfl
  · intro subj e name hn hlk
    obtain ⟨n?, vr?, v?⟩ := e
    have hn2 : n? = some name := hn
    subst hn2
    cases v? with
    | none => rfl
    | some v =>
      unfold elemFacts
      dsimp only
      rw [hlk]

/-- C10 witness: a Modality record (mapped name) with a None value emits
nothing, and an unmapped record name with a value emits nothing. -/
theorem C10_witness :
    elemFacts (Term.uri "http://example.org/dicom/c_f")
      ⟨some "Modality", some "CS", none⟩ = ∅ ∧
    elemFacts (Term.uri "http://example.org/dicom/c_f")
      ⟨some "NotADicomName", some "CS", some (.pstr "x")⟩ = ∅ := by
  exact ⟨C10_theorem.1 _ (some "Modality") (some "CS"),
    C10_theorem.2 _ _ "NotADicomName" rfl (by decide)⟩

/-! Duplicate-freeness of the aggregation query's solution rows. -/

theorem triple_ext {x y : Triple} (h1 : x.1 = y.1) (h2 : x.2.1 = y.2.1)
    (h3 : x.2.2 = y.2.2) : x = y := by
  obtain ⟨a, b, c⟩ := x
  obtain ⟨d, e, f⟩ := y
  dsimp only at h1 h2 h3
  rw [h1, h2, h3]

theorem catRow_ext {x y : CatRow} (hk : keyOf x = keyOf y)
    (hd : x.distribution = y.distribution) : x = y := by
  obtain ⟨a1, a2, a3, a4, a5, a6, a7, a8, a9, a10, a11⟩ := x
  obtain ⟨b1, b2, b3, b4, b5, b6, b7, b8, b9, b10, b11⟩ := y
  simp only [keyOf, CatKey.mk.injEq] at hk
  dsimp only at hd
  obtain ⟨rfl, rfl, rfl, rfl, rfl, rfl, rfl, rfl, rfl, rfl⟩ := hk
  rw [hd]

theorem optCandidates_nodup {gl : List Triple} (hg : gl.Nodup) (s p : Term) :
    (optCandidates gl s p).Nodup := by
  unfold optCandidates
  by_cases h : gl.filter (fun t => decide (t.1 = s ∧ t.2.1 = p)) = []
  · rw [if_pos h]
    simp
  · rw [if_neg h]
    apply List.Nodup.map_on
    · intro x hx y hy hxy
      have hxp := List.mem_filter.1 hx
      have hyp := List.mem_filter.1 hy
      have hx2 : x.1 = s ∧ x.2.1 = p := by simpa using hxp.2
      have hy2 : y.1 = s ∧ y.2.1 = p := by simpa using hyp.2
      exact triple_ext (hx2.1.trans hy2.1.symm) (hx2.2.trans hy2.2.symm)
        (Option.some.inj hxy)
    · exact List.Nodup.filter _ hg

theorem mem_rowsForDist {gl : List Triple} {c ds dist : Term} {r : CatRow}
    (h : r ∈ rowsForDist gl c ds dist) :
    r.catalog = c ∧ r.dataset = ds ∧ r.distribution = dist := by
  unfold rowsForDist at h
  simp only [List.mem_flatMap, List.mem_map] at h
  obtain ⟨v1, -, v2, -, v3, -, v4, -, v5, -, v6, -, v7, -, v8, -, rfl⟩ := h
  exact ⟨rfl, rfl, rfl⟩

theorem rowsForDist_nodup {gl : List Triple} (hg : gl.Nodup) (c ds dist : Term) :
    (rowsForDist gl c ds dist).Nodup := by
  unfold rowsForDist
  refine nodup_flatMap_field _ _ (fun r : CatRow => r.catalogTitle)
    (optCandidates_nodup hg c dctermsTitleP) (fun v1 _ => ?_) (fun v1 _ r hr => ?_)
  · refine nodup_flatMap_field _ _ (fun r : CatRow => r.catalogPublisher)
      (optCandidates_nodup hg c dctermsPublisherP) (fun v2 _ => ?_) (fun v2 _ r hr => ?_)
    · refine nodup_flatMap_field _ _ (fun r : CatRow => r.catalogIssued)
        (optCandidates_nodup hg c dctermsIssuedP) (fun v3 _ => ?_) (fun v3 _ r hr => ?_)
      · refine nodup_flatMap_field _ _ (fun r : CatRow => r.catalogLanguage)
          (optCandidates_nodup hg c dctermsLanguageP) (fun v4 _ => ?_) (fun v4 _ r hr => ?_)
        · refine nodup_flatMap_field _ _ (fun r : CatRow => r.datasetTitle)
            (optCandidates_nodup hg ds dctermsTitleP) (fun v5 _ => ?_) (fun v5 _ r hr => ?_)
          · refine nodup_flatMap_field _ _ (fun r : CatRow => r.datasetDescription)
              (optCandidates_nodup hg ds dctermsDescriptionP) (fun v6 _ => ?_)
              (fun v6 _ r hr => ?_)
            · refine nodup_flatMap_field _ _ (fun r : CatRow => r.datasetIdentifier)
                (optCandidates_nodup hg ds dctermsIdentifierP) (fun v7 _ => ?_)
                (fun v7 _ r hr => ?_)
              · exact List.Nodup.map
                  (fun a b h => by
                    exact congrArg (fun r : CatRow => r.datasetIssued) h)
                  (optCandidates_nodup hg ds dctermsIssuedP)
              · obtain ⟨v8, -, rfl⟩ := List.mem_map.1 hr
                rfl
            · simp only [List.mem_flatMap, List.mem_map] at hr
              obtain ⟨v7, -, v8, -, rfl⟩ := hr
              rfl
          · simp only [List.mem_flatMap, List.mem_map] at hr
            obtain ⟨v6, -, v7, -, v8, -, rfl⟩ := hr
            rfl
        · simp only [List.mem_flatMap, List.mem_map] at hr
          obtain ⟨v5, -, v6, -, v7, -, v8, -, rfl⟩ := hr
          rfl
      · simp only [List.mem_flatMap, List.mem_map] at hr
        obtain ⟨v4, -, v5, -, v6, -, v7, -, v8, -, rfl⟩ := hr
        rfl
    · simp only [List.mem_flatMap, List.mem_map] at hr
      obtain ⟨v3, -, v4, -, v5, -, v6, -, v7, -, v8, -, rfl⟩ := hr
      rfl
  · simp only [List.mem_flatMap, List.mem_map] at hr
    obtain ⟨v2, -, v3, -, v4, -, v5, -, v6, -, v7, -, v8, -, rfl⟩ := hr
    rfl

theorem catRows_nodup {gl : List Triple} (hg : gl.Nodup) : (catRows gl).Nodup := by
  unfold catRows
  refine nodup_flatMap_field _ _
    (fun r : CatRow => ((r.catalog, rdfType, dcatCatalogCls) : Triple))
    (List.Nodup.filter _ hg) (fun tc htc => ?_) (fun tc htc r hr => ?_)
  · refine nodup_flatMap_field _ _
      (fun r : CatRow => ((tc.1, dcatDatasetP, r.dataset) : Triple))
      (List.Nodup.filter _ hg) (fun td htd => ?_) (fun td htd r hr => ?_)
    · refine nodup_flatMap_field _ _
        (fun r : CatRow => ((td.2.2, dcatDistributionP, r.distribution) : Triple))
        (List.Nodup.filter _ hg) (fun tdist htdist => ?_) (fun tdist htdist r hr => ?_)
      · exact rowsForDist_nodup hg _ _ _
      · obtain ⟨h1, h2, h3⟩ := mem_rowsForDist hr
        have hfp : tdist.1 = td.2.2 ∧ tdist.2.1 = dcatDistributionP := by
          simpa using (List.mem_filter.1 htdist).2
        exact triple_ext hfp.1.symm hfp.2.symm h3
    · simp only [List.mem_flatMap] at hr
      obtain ⟨tdist, -, hr2⟩ := hr
      obtain ⟨h1, h2, h3⟩ := mem_rowsForDist hr2
      have hfp : td.1 = tc.1 ∧ td.2.1 = dcatDatasetP := by
        simpa using (List.mem_filter.1 htd).2
      exact triple_ext hfp.1.symm hfp.2.symm h2
  · simp only [List.mem_flatMap] at hr
    obtain ⟨td, -, tdist, -, hr2⟩ := hr
    obtain ⟨h1, h2, h3⟩ := mem_rowsForDist hr2
    have hfp : tc.2.1 = rdfType ∧ tc.2.2 = dcatCatalogCls := by
      simpa using (List.mem_filter.1 htc).2
    exact triple_ext h1 hfp.1.symm hfp.2.symm

/-- C3: in the catalog aggregation view, each group's COUNT(?distribution)
value (the numRecords field) equals the number of distinct distribution
values bound in that group: the solution multiset of the query contains no
duplicate rows, and within one GROUP BY group rows differ exactly in their
distribution binding, so join fan-out never inflates the count. -/
theorem C3_theorem : ∀ (gl : List Triple), gl.Nodup → ∀ K : CatKey,
    numRecords gl K = distinctDistributionCount gl K := by
  intro gl hg K
  unfold numRecords distinctDistributionCount
  have hnd : ((groupRows gl K).map (fun r => r.distribution)).Nodup := by
    apply List.Nodup.map_on
    · intro x hx y hy hxy
      have hkx : keyOf x = K := by simpa using (List.mem_filter.1 hx).2
      have hky : keyOf y = K := by simpa using (List.mem_filter.1 hy).2
      exact catRow_ext (hkx.trans hky.symm) hxy
    · exact List.Nodup.filter _ (catRows_nodup hg)
  rw [List.dedup_eq_self.2 hnd, List.length_map]

/-- C3 witness: a concrete duplicate-free graph with one catalog, one
dataset and two distributions, at the group key that binds no optional
variables. -/
theorem C3_witness :
    numRecords
      [(catalogUri "c", rdfType, dcatCatalogCls),
       (catalogUri "c", dcatDatasetP, datasetUri "c"),
       (datasetUri "c", dcatDistributionP, Term.uri "http://example.org/dicom/c_a"),
       (datasetUri "c", dcatDistributionP, Term.uri "http://example.org/dicom/c_b")]
      ⟨catalogUri "c", none, none, none, none, datasetUri "c", none, none, none, none⟩ =
    distinctDistributionCount
      [(catalogUri "c", rdfType, dcatCatalogCls),
       (catalogUri "c", dcatDatasetP, datasetUri "c"),
       (datasetUri "c", dcatDistributionP, Term.uri "http://example.org/dicom/c_a"),
       (datasetUri "c", dcatDistributionP, Term.uri "http://example.org/dicom/c_b")]
      ⟨catalogUri "c", none, none, none, none, datasetUri "c", none, none, none, none⟩ := by
  exact C3_theorem
    [(catalogUri "c", rdfType, dcatCatalogCls),
     (catalogUri "c", dcatDatasetP, datasetUri "c"),
     (datasetUri "c", dcatDistributionP, Term.uri "http://example.org/dicom/c_a"),
     (datasetUri "c", dcatDistributionP, Term.uri "http://example.org/dicom/c_b")]
    (by decide)
    ⟨catalogUri "c", none, none, none, none, datasetUri "c", none, none, none, none⟩
